import Mathlib

/-!
Verification development for the mcp-excel structure-inference and loading
pipeline.  Python strings are embedded as `List Char` (named `Str` below) and
the relevant operations of `mcp_excel/utils/naming.py`,
`mcp_excel/loading/analyzer.py`, `mcp_excel/loading/loader.py` and
`mcp_excel/loading/formats/normalizer.py` are translated function by
function.  Fallible external calls (file stat, workbook parsing, the pandas
generic date parser, user-supplied regular expressions) are modelled as
explicit `Except`/`Option` data or as boolean-matcher parameters, since they
are library calls outside this repository.  Python `dict`s are modelled as
association lists, `None` as `Option.none`, and python truthiness of strings
and optionals is made explicit where the source relies on it.
-/

set_option maxRecDepth 4000

abbrev Str := List Char

/-- Decimal digit character, `chr(48+d)` as the python formatting produces. -/
def digitChar (d : Nat) : Char := Char.ofNat (48 + d)

/-- Fuel-driven decimal rendering of a positive natural number. -/
def natToCharsAux : Nat → Nat → Str
  | 0, _ => []
  | fuel + 1, n =>
    if n = 0 then [] else natToCharsAux fuel (n / 10) ++ [digitChar (n % 10)]

/-- Decimal rendering of a natural number, as python `str`/f-strings do. -/
def natToChars (n : Nat) : Str :=
  if n = 0 then ['0'] else natToCharsAux n n

/-! ## Table-name registry (`mcp_excel/utils/naming.py`, `TableRegistry`) -/

/-- `component.lower()`; python lowers all of unicode while `Char.toLower`
only lowers ASCII, but every non-ASCII letter is removed by the following
character filter either way. -/
def lowerChars (s : Str) : Str := s.map Char.toLower

/-- `component.replace(' ', '_')`. -/
def spaceToUnd (s : Str) : Str := s.map (fun c => if c = ' ' then '_' else c)

/-- Characters kept by `re.sub(r'[^a-z0-9_$]', '', component)`. -/
def isBaseChar (c : Char) : Bool :=
  ('a' ≤ c && c ≤ 'z') || c.isDigit || c = '_' || c = '$'

/-- `re.sub(r'[^a-z0-9_$]', '', component)`. -/
def filterBase (s : Str) : Str := s.filter isBaseChar

/-- `re.sub(r'_+', '_', component)`: collapse runs of underscores.  The flag
records whether the previous character belonged to an underscore run. -/
def squeezeUnd : Bool → Str → Str
  | _, [] => []
  | inRun, c :: rest =>
    if c = '_' then
      if inRun then squeezeUnd true rest else '_' :: squeezeUnd true rest
    else c :: squeezeUnd false rest

/-- `component.strip('_')`. -/
def stripUnd (s : Str) : Str :=
  ((s.dropWhile (fun c => c = '_')).reverse.dropWhile (fun c => c = '_')).reverse

/-- `TableRegistry._sanitize_component`. -/
def sanitizeComponent (s : Str) : Str :=
  stripUnd (squeezeUnd false (filterBase (spaceToUnd (lowerChars s))))

/-- `relpath.rsplit(".", 1)[0] if "." in relpath else relpath`. -/
def dropExt (r : Str) : Str :=
  if r.contains '.' then (((r.reverse).dropWhile (fun c => c ≠ '.')).drop 1).reverse
  else r

/-- `.replace("\\", "/")`. -/
def slashNorm (s : Str) : Str := s.map (fun c => if c = '\\' then '/' else c)

/-- Python `str.split(sep)` for a single-character separator: `"".split` is
`[""]` and adjacent separators produce empty components. -/
def splitOnChar (sep : Char) : Str → List Str
  | [] => [[]]
  | c :: rest =>
    if c = sep then [] :: splitOnChar sep rest
    else
      match splitOnChar sep rest with
      | [] => [[c]]
      | h :: t => (c :: h) :: t

/-- The `f"r{region_id}"` suffix component. -/
def rTag (n : Nat) : Str := 'r' :: natToChars n

/-- `[alias] + relpath_components + [sheet]` plus the optional region tag. -/
def buildParts (ns relpath sheet : Str) (region : Nat) : List Str :=
  ([ns] ++ splitOnChar '/' (slashNorm (dropExt relpath)) ++ [sheet]) ++
    (if 0 < region then [rTag region] else [])

def tableChars : Str := ['t', 'a', 'b', 'l', 'e']

def tUndChars : Str := ['t', '_']

/-- Python truthiness of `name and name[0].isdigit()`. -/
def nameHeadDigit : Str → Bool
  | [] => false
  | c :: _ => c.isDigit

/-- `".".join(parts)`. -/
def joinDots : List Str → Str
  | [] => []
  | [p] => p
  | p :: rest => p ++ '.' :: joinDots rest

/-- `[self._sanitize_component(p) for p in parts if self._sanitize_component(p)]`. -/
def sanitizedParts (ns relpath sheet : Str) (region : Nat) : List Str :=
  ((buildParts ns relpath sheet region).map sanitizeComponent).filter
    (fun p => p ≠ [])

/-- `sanitized_parts.append("table")` when only one component survived. -/
def coreParts (sp : List Str) : List Str :=
  if sp.length = 1 then sp ++ [tableChars] else sp

/-- The dot-joined name with the `t_` prefix applied when the whole name or
any surviving component starts with a digit. -/
def namePrefixed (sp2 : List Str) : Str :=
  if nameHeadDigit (joinDots sp2) then tUndChars ++ joinDots sp2
  else if sp2.any nameHeadDigit then tUndChars ++ joinDots sp2
  else joinDots sp2

/-- `if len(name) > 63: name = name[:63]`. -/
def truncate63 (s : Str) : Str := if 63 < s.length then s.take 63 else s

/-- `TableRegistry._build_and_sanitize`. -/
def buildAndSanitize (ns relpath sheet : Str) (region : Nat) : Str :=
  if sanitizedParts ns relpath sheet region = [] then tableChars
  else truncate63 (namePrefixed (coreParts (sanitizedParts ns relpath sheet region)))

/-- Registry state: the set of issued names (`self._names`, insertion order
irrelevant) and the per-base collision counter (`self._collision_counts`,
a defaultdict). -/
structure RegState where
  names : List Str
  counts : List (Str × Nat)
deriving DecidableEq

/-- `self._collision_counts[name] += 1` on a defaultdict(int). -/
def bumpCount : List (Str × Nat) → Str → List (Str × Nat)
  | [], k => [(k, 1)]
  | (a, n) :: rest, k =>
    if a = k then (a, n + 1) :: rest else (a, n) :: bumpCount rest k

/-- defaultdict(int) lookup. -/
def lookupCount : List (Str × Nat) → Str → Nat
  | [], _ => 0
  | (a, n) :: rest, k => if a = k then n else lookupCount rest k

/-- The `while f"{name}_{collision_num}" in self._names` loop; the fuel is
`names.length + 1` which always suffices because the candidates are pairwise
distinct. -/
def findFreeNum (names : List Str) (name : Str) : Nat → Nat → Nat
  | k, 0 => k
  | k, fuel + 1 =>
    if (name ++ '_' :: natToChars k) ∈ names then findFreeNum names name (k + 1) fuel
    else k

/-- `TableRegistry._handle_collision`, returning the chosen name and the
updated collision counters. -/
def handleCollision (st : RegState) (name : Str) : Str × RegState :=
  if name ∈ st.names then
    let counts2 := bumpCount st.counts name
    let start := lookupCount counts2 name + 1
    let k := findFreeNum st.names name start (st.names.length + 1)
    (name ++ '_' :: natToChars k, { st with counts := counts2 })
  else (name, st)

/-- `TableRegistry.register` (the mutex only serialises calls and is not
observable in a sequential model). -/
def register (st : RegState) (ns relpath sheet : Str) (region : Nat) :
    Str × RegState :=
  let base := buildAndSanitize ns relpath sheet region
  let final := handleCollision st base
  (final.1, { final.2 with names := final.1 :: final.2.names })

/-- Characters the (amended) naming claim allows in a registered name. -/
def isNameChar (c : Char) : Bool := isBaseChar c || c = '.'

/-! ## Structure analyzer (`mcp_excel/loading/analyzer.py`) -/

/-- An openpyxl cell value: `None`, a `str`, an `int`/`float`, a `bool`
(a subclass of `int` in python), or any other type (dates, errors, ...). -/
inductive XCell where
  | empty : XCell
  | text : Str → XCell
  | num : ℚ → XCell
  | boolv : Bool → XCell
  | other : XCell
deriving DecidableEq

/-- A worksheet's cell grid, 1-based as in openpyxl. -/
abbrev GridM := Nat → Nat → XCell

/-- The data bounding box produced by `_detect_data_region`. -/
structure RegionM where
  start_row : Nat
  end_row : Nat
  start_col : Nat
  end_col : Nat
deriving DecidableEq

/-- `c is not None`. -/
def cellNonNull : XCell → Bool
  | .empty => false
  | _ => true

/-- `isinstance(c, str)`. -/
def cellIsStr : XCell → Bool
  | .text _ => true
  | _ => false

/-- `isinstance(c, (int, float))`; python `bool` is a subclass of `int`. -/
def cellIsNum : XCell → Bool
  | .num _ => true
  | .boolv _ => true
  | _ => false

/-- The cell values of row `r` over columns `range(c1, c2 + 1)`. -/
def rowVals (g : GridM) (r c1 c2 : Nat) : List XCell :=
  (List.range' c1 (c2 + 1 - c1)).map (g r)

/-- `[c for c in row_cells if c is not None]`. -/
def nonEmptyVals (g : GridM) (r c1 c2 : Nat) : List XCell :=
  (rowVals g r c1 c2).filter cellNonNull

/-- `any(isinstance(c, (int, float)) for c in next_row_cells if c is not None)`,
guarded by `row_idx < end_row` as in `_detect_headers`. -/
def numbersBelowB (g : GridM) (endRow : Nat) (c1 c2 r : Nat) : Bool :=
  if r < endRow then ((rowVals g (r + 1) c1 c2).filter cellNonNull).any cellIsNum
  else false

/-- One loop iteration of `_detect_headers`: the row is not skipped by the
`continue` and satisfies
`all_strings and (has_numbers_below or row_idx == end_row)`. -/
def rowQualifies (g : GridM) (reg : RegionM) (r : Nat) : Bool :=
  let ne := nonEmptyVals g r reg.start_col reg.end_col
  !ne.isEmpty && ne.all cellIsStr &&
    (numbersBelowB g reg.end_row reg.start_col reg.end_col r || r == reg.end_row)

/-- `range(start_row, min(start_row + 10, end_row + 1))`. -/
def headerScanRows (reg : RegionM) : List Nat :=
  List.range' reg.start_row (min (reg.start_row + 10) (reg.end_row + 1) - reg.start_row)

/-- The `{header_row, header_rows_count, confidence}` dict of `_detect_headers`. -/
structure HeaderInfoM where
  header_row : Option Nat
  header_rows_count : Nat
  confidence : ℚ
deriving DecidableEq

/-- `ExcelAnalyzer._detect_headers`. -/
def detectHeaders (g : GridM) (reg : RegionM) : HeaderInfoM :=
  match (headerScanRows reg).find? (rowQualifies g reg) with
  | some r => ⟨some r, 1, mkRat 9 10⟩
  | none => ⟨none, 0, 0⟩

/-- `ExcelAnalyzer._detect_blank_rows`. -/
def detectBlankRows (g : GridM) (reg : RegionM) : List Nat :=
  (List.range' reg.start_row (reg.end_row + 1 - reg.start_row)).filter
    (fun r => (rowVals g r reg.start_col reg.end_col).all (fun c => !cellNonNull c))

/-- Loop body of `_group_consecutive_blank_rows`. -/
def groupBlankAux (prev : Nat) (current : List Nat) (groups : List (List Nat)) :
    List Nat → List (List Nat)
  | [] => groups ++ [current]
  | b :: rest =>
    if b = prev + 1 then groupBlankAux b (current ++ [b]) groups rest
    else groupBlankAux b [b] (groups ++ [current]) rest

/-- `ExcelAnalyzer._group_consecutive_blank_rows`. -/
def groupConsecutiveBlankRows : List Nat → List (List Nat)
  | [] => []
  | b :: rest => groupBlankAux b [b] [] rest

/-- Stable ascending insertion by the group's first element, matching
`sorted(separators, key=lambda g: g[0])`. -/
def insertByHead (grp : List Nat) : List (List Nat) → List (List Nat)
  | [] => [grp]
  | h :: t =>
    if grp.headD 0 < h.headD 0 then grp :: h :: t else h :: insertByHead grp t

def sortByHead (l : List (List Nat)) : List (List Nat) :=
  l.foldl (fun acc g => insertByHead g acc) []

/-- `ExcelAnalyzer._split_by_separators`. -/
def splitBySeparators (startRow endRow : Nat) (seps : List (List Nat)) :
    List (Nat × Nat) :=
  let step := fun (acc : List (Nat × Nat) × Nat) (grp : List Nat) =>
    let sepStart := grp.headD 0
    let sepEnd := grp.getLastD 0
    let secs := if acc.2 < sepStart then acc.1 ++ [(acc.2, sepStart - 1)] else acc.1
    (secs, sepEnd + 1)
  let out := (sortByHead seps).foldl step ([], startRow)
  if out.2 ≤ endRow then out.1 ++ [(out.2, endRow)] else out.1

/-- Loop condition of `_detect_section_header`, identical in shape to
`rowQualifies` but over a section's row range. -/
def sectionRowQualifies (g : GridM) (sectionEnd c1 c2 r : Nat) : Bool :=
  let ne := nonEmptyVals g r c1 c2
  !ne.isEmpty && ne.all cellIsStr && (numbersBelowB g sectionEnd c1 c2 r || r == sectionEnd)

/-- `ExcelAnalyzer._detect_section_header`: the found header row with its
confidence (`0.9` when numbers sit beneath it, else `0.5`). -/
def detectSectionHeader (g : GridM) (sectionStart sectionEnd c1 c2 : Nat) :
    Option (Nat × ℚ) :=
  match (List.range' sectionStart
      (min (sectionStart + 10) (sectionEnd + 1) - sectionStart)).find?
      (sectionRowQualifies g sectionEnd c1 c2) with
  | some r => some (r, if numbersBelowB g sectionEnd c1 c2 r then mkRat 9 10 else mkRat 1 2)
  | none => none

/-- `ExcelAnalyzer._detect_title_rows`. -/
def detectTitleRows (g : GridM) (sectionStart headerRow c1 c2 : Nat) : List Nat :=
  (List.range' sectionStart (headerRow - sectionStart)).filter
    (fun r => !(nonEmptyVals g r c1 c2).isEmpty)

/-- `ExcelAnalyzer._detect_table_width`. -/
def detectTableWidth (g : GridM) (headerRow endRow c1 c2 : Nat) : Nat × Nat :=
  let cells := (List.range' headerRow (min (headerRow + 100) (endRow + 1) - headerRow)).flatMap
    (fun r => (List.range' c1 (c2 + 1 - c1)).filterMap
      (fun c => if cellNonNull (g r c) then some c else none))
  let mn := cells.foldl min c2
  let mx := cells.foldl max c1
  if mn ≤ mx then (mn, mx) else (c1, c2)

/-- One entry of the analyzer's `table_ranges` list; `title_rows` is `none`
for the fallback entries whose dict lacks the key. -/
structure TableRange where
  start_row : Nat
  end_row : Nat
  start_col : Nat
  end_col : Nat
  has_header : Bool
  header_row : Option Nat
  confidence : ℚ
  title_rows : Option (List Nat)
deriving DecidableEq

/-- Python truthiness of `header_info['header_row']` (None and 0 are falsy). -/
def headerTruthy : Option Nat → Bool
  | some n => n != 0
  | none => false

/-- The single full-box table appended when no significant separator exists
or when every section was headerless. -/
def fullBoxTable (reg : RegionM) (hi : HeaderInfoM) : TableRange :=
  ⟨hi.header_row.getD 0, reg.end_row, reg.start_col, reg.end_col, true,
    hi.header_row, hi.confidence, none⟩

/-- Per-section body of the `for section_start, section_end in table_sections`
loop in `_detect_multiple_tables`. -/
def sectionTables (g : GridM) (reg : RegionM) (sections : List (Nat × Nat)) :
    List TableRange :=
  sections.foldl
    (fun acc se =>
      if se.2 < se.1 then acc
      else
        match detectSectionHeader g se.1 se.2 reg.start_col reg.end_col with
        | none => acc
        | some hr =>
          let titles := detectTitleRows g se.1 hr.1 reg.start_col reg.end_col
          let width := detectTableWidth g hr.1 se.2 reg.start_col reg.end_col
          acc ++ [⟨hr.1, se.2, width.1, width.2, true, some hr.1, hr.2, some titles⟩])
    []

/-- `ExcelAnalyzer._detect_multiple_tables`. -/
def detectMultipleTables (g : GridM) (reg : RegionM) (hi : HeaderInfoM) :
    List TableRange :=
  let blank := detectBlankRows g reg
  let groups := groupConsecutiveBlankRows blank
  let significant := groups.filter (fun grp => 2 ≤ grp.length)
  if significant.isEmpty then
    if headerTruthy hi.header_row then [fullBoxTable reg hi] else []
  else
    let sections := splitBySeparators reg.start_row reg.end_row significant
    let tables := sectionTables g reg sections
    if tables.isEmpty then
      if headerTruthy hi.header_row then [fullBoxTable reg hi] else []
    else tables

/-- The `StructureInfo` dataclass (`mcp_excel/models.py`); floats are
embedded as rationals and dicts as association lists. -/
structure StructureInfoM where
  data_start_row : Nat
  data_end_row : Nat
  data_start_col : Nat
  data_end_col : Nat
  header_row : Option Nat
  header_rows_count : Nat
  header_confidence : ℚ
  metadata_rows : List Nat
  metadata_type : Str
  merged_ranges : List (Nat × Nat × Nat × Nat)
  merged_in_headers : Bool
  merged_in_data : Bool
  hidden_rows : List Nat
  hidden_columns : List Nat
  detected_locale : Str
  decimal_separator : Str
  thousands_separator : Str
  num_tables : Nat
  table_ranges : List TableRange
  blank_rows : List Nat
  inconsistent_columns : Bool
  has_formulas : Bool
  suggested_skip_rows : Nat
  suggested_skip_footer : Nat
  suggested_overrides : List (Str × Str)
deriving DecidableEq

/-- `ExcelAnalyzer._create_default_structure_info`. -/
def defaultStructureInfo : StructureInfoM :=
  { data_start_row := 1
    data_end_row := 1
    data_start_col := 1
    data_end_col := 1
    header_row := none
    header_rows_count := 0
    header_confidence := 0
    metadata_rows := []
    metadata_type := ['u', 'n', 'k', 'n', 'o', 'w', 'n']
    merged_ranges := []
    merged_in_headers := false
    merged_in_data := false
    hidden_rows := []
    hidden_columns := []
    detected_locale := ['e', 'n', '_', 'U', 'S']
    decimal_separator := ['.']
    thousands_separator := [',']
    num_tables := 0
    table_ranges := []
    blank_rows := []
    inconsistent_columns := false
    has_formulas := false
    suggested_skip_rows := 0
    suggested_skip_footer := 0
    suggested_overrides := [] }

/-- The `LRUCache` of `analyzer.py`: an ordered association list, oldest
entry first, with the capacity `maxsize`. -/
structure LruState where
  entries : List (Str × StructureInfoM)
  maxsize : Nat
deriving DecidableEq

/-- `LRUCache.get`: a hit moves the key to the most-recent end. -/
def lruGet (st : LruState) (k : Str) : Option StructureInfoM × LruState :=
  match (st.entries.find? (fun p => p.1 = k)) with
  | some p =>
    (some p.2, { st with entries := st.entries.filter (fun q => q.1 ≠ k) ++ [p] })
  | none => (none, st)

/-- `LRUCache.put`: insert or refresh the key at the most-recent end, then
evict the oldest entry if over capacity. -/
def lruPut (st : LruState) (k : Str) (v : StructureInfoM) : LruState :=
  let entries2 := st.entries.filter (fun q => q.1 ≠ k) ++ [(k, v)]
  { st with entries := if st.maxsize < entries2.length then entries2.drop 1 else entries2 }

/-- `f"{file_path}:{sheet}:{mtime}"`. -/
def cacheKey (filePath sheet mtime : Str) : Str :=
  filePath ++ ':' :: sheet ++ ':' :: mtime

/-- The two effectful steps of `analyze_structure`: the `file_path.stat()`
call made before the `try` block, and everything inside the `try`
(workbook loading, sheet access and all `_detect_*` steps), each modelled
as an `Except` outcome (`.error` = a raised exception). -/
structure AnalyzeAttempt where
  statMtime : Except Str Str
  body : Except Str StructureInfoM

/-- `ExcelAnalyzer.analyze_structure`: the stat happens before the `try`,
a cache hit returns directly, a body failure returns the default result
(uncached), a body success is cached. -/
def analyzeStructure (st : LruState) (filePath sheet : Str) (att : AnalyzeAttempt) :
    Except Str (StructureInfoM × LruState) :=
  match att.statMtime with
  | .error e => .error e
  | .ok mtime =>
    let key := cacheKey filePath sheet mtime
    match lruGet st key with
    | (some si, st2) => .ok (si, st2)
    | (none, st2) =>
      match att.body with
      | .error _ => .ok (defaultStructureInfo, st2)
      | .ok si => .ok (si, lruPut st2 key si)

/-! ## Dataframe cell values (shared by the loader and the normalizer) -/

/-- A pandas cell value as this pipeline uses it: a python string, a float
(embedded as an exact rational), a missing value (`NaN`/`NaT`/`None`), a
timestamp (kept as its day serial relative to the requested origin), or a
bool. -/
inductive CellVal where
  | str : Str → CellVal
  | num : ℚ → CellVal
  | nan : CellVal
  | date : ℚ → CellVal
  | boolv : Bool → CellVal
deriving DecidableEq

/-- Missingness as pandas `isna` sees it (`NaN` and `NaT`). -/
def cellIsNa : CellVal → Bool
  | .nan => true
  | _ => false

/-- Decimal rendering of an integer (python `str(int)`). -/
def intToChars (i : Int) : Str :=
  if i < 0 then '-' :: natToChars i.natAbs else natToChars i.natAbs

/-- `str()` of a float.  Python renders an integral float as `"1000.0"`,
which this reproduces exactly; non-integral rationals are rendered as a
fraction, an approximation that none of the evaluated claims exercises
(`str()` is only ever applied to string, missing or integral cells there). -/
def qToStr (q : ℚ) : Str :=
  if q.den = 1 then intToChars q.num ++ ['.', '0']
  else intToChars q.num ++ '/' :: natToChars q.den

/-- `astype(str)` / `str()` on one cell: `NaN` becomes the string `"nan"`. -/
def pyStr : CellVal → Str
  | .str s => s
  | .num q => qToStr q
  | .nan => ['n', 'a', 'n']
  | .date d => 'T' :: 'S' :: qToStr d
  | .boolv b => if b then ['T', 'r', 'u', 'e'] else ['F', 'a', 'l', 's', 'e']

/-- Pandas element-wise `==` against a scalar: `NaN` compares unequal to
everything, `True == 1` and `False == 0` hold as in python. -/
def pyEq : CellVal → CellVal → Bool
  | .str a, .str b => a = b
  | .num a, .num b => a = b
  | .num a, .boolv b => a = (if b then (1 : ℚ) else 0)
  | .boolv a, .num b => (if a then (1 : ℚ) else 0) = b
  | .boolv a, .boolv b => a = b
  | .date a, .date b => a = b
  | _, _ => false

/-- `value.strip()`-style whitespace (ASCII whitespace plus the non-breaking
space; python's `\s`/`strip` additionally cover rarer unicode spaces that no
claim exercises). -/
def isPyWsChar (c : Char) : Bool :=
  c = ' ' || c = '\t' || c = '\n' || c = '\r' || c = '\x0b' || c = '\x0c' ||
    c = '\xa0'

def stripPy (s : Str) : Str :=
  ((s.dropWhile isPyWsChar).reverse.dropWhile isPyWsChar).reverse

/-- Value of a list of digit characters. -/
def digitsVal (l : Str) : Nat := l.foldl (fun a c => a * 10 + (c.toNat - 48)) 0

/-- Exact rational `sign * mant / scale * 10^e`, assembled through `mkRat`
(the `Rat` ring operations are irreducible by design, so the model builds
its rationals from numerator and denominator directly). -/
def ratOfParts (sign : Int) (mant scale : Nat) (e : Int) : ℚ :=
  if 0 ≤ e then mkRat (sign * mant * (10 : Int) ^ e.natAbs) scale
  else mkRat (sign * mant) (scale * 10 ^ e.natAbs)

/-- Decidable `a ≤ b` on ℚ by cross multiplication (denominators are
positive by the `Rat` invariant). -/
def qLeB (a b : ℚ) : Bool := decide (a.num * (b.den : Int) ≤ b.num * (a.den : Int))

/-- Optional `e`/`E` exponent suffix; anything after it must be consumed. -/
def parseExpPart : Str → Option Int
  | [] => some 0
  | c :: r =>
    if c = 'e' ∨ c = 'E' then
      let se : Int × Str :=
        match r with
        | '+' :: t => (1, t)
        | '-' :: t => (-1, t)
        | _ => (1, r)
      let ed := se.2.takeWhile Char.isDigit
      if ed.isEmpty ∨ ¬(se.2.dropWhile Char.isDigit).isEmpty then none
      else some (se.1 * (digitsVal ed : Int))
    else none

/-- `pd.to_numeric(...)` on one string: python number syntax
(`[+-]? digits [. digits]? ([eE][+-]?digits)?`, also `.5` and `5.`),
with surrounding whitespace tolerated; everything else fails. -/
def toNumericQ (s0 : Str) : Option ℚ :=
  let s := stripPy s0
  let sg : Int × Str :=
    match s with
    | '+' :: r => (1, r)
    | '-' :: r => (-1, r)
    | _ => (1, s)
  let ip := sg.2.takeWhile Char.isDigit
  let r1 := sg.2.dropWhile Char.isDigit
  match r1 with
  | '.' :: r2 =>
    let fp := r2.takeWhile Char.isDigit
    let r3 := r2.dropWhile Char.isDigit
    if ip.isEmpty ∧ fp.isEmpty then none
    else
      match parseExpPart r3 with
      | none => none
      | some e =>
        some (ratOfParts sg.1 (digitsVal ip * 10 ^ fp.length + digitsVal fp)
          (10 ^ fp.length) e)
  | _ =>
    if ip.isEmpty then none
    else
      match parseExpPart r1 with
      | none => none
      | some e => some (ratOfParts sg.1 (digitsVal ip) 1 e)

/-- `pd.to_numeric(x, errors='coerce')` on one cell. -/
def toNumericCell : CellVal → CellVal
  | .str s =>
    match toNumericQ s with
    | some q => .num q
    | none => .nan
  | .num q => .num q
  | .boolv b => .num (if b then 1 else 0)
  | .nan => .nan
  | .date _ => .nan

/-! ## Loader row filters (`mcp_excel/loading/loader.py`) -/

/-- A loader dataframe: ordered column labels plus rows of cells (the index
is dropped/reset by every operation modelled here, so it is not carried). -/
structure DFrame where
  cols : List Str
  rows : List (List CellVal)
deriving DecidableEq

/-- `col_name in df.columns`, resolved to the column's position (labels are
assumed unique, as produced by this loader). -/
def colIdx (df : DFrame) (name : Str) : Option Nat :=
  df.cols.findIdx? (fun c => c = name)

/-- One `drop_conditions` entry: `{column, exactly one of regex|equals|is_null}`.
The regex is carried as its compiled matcher (`re.match` at the start of the
rendered string), a total function since `re` is an external library. -/
inductive DropOp where
  | regexOp : (Str → Bool) → DropOp
  | equalsOp : CellVal → DropOp
  | isNullOp : Bool → DropOp

structure DropCondition where
  column : Str
  op : DropOp

/-- The per-condition row mask of `_apply_drop_conditions`: false when the
column name is falsy or absent, otherwise the regex/equals/is_null test
(the regex acting on `astype(str)` so `NaN` matches as `"nan"`). -/
def condMatches (df : DFrame) (cond : DropCondition) (row : List CellVal) : Bool :=
  if cond.column.isEmpty then false
  else
    match colIdx df cond.column with
    | none => false
    | some i =>
      match cond.op with
      | .regexOp m => m (pyStr (row.getD i CellVal.nan))
      | .equalsOp v => pyEq (row.getD i CellVal.nan) v
      | .isNullOp b =>
        if b then cellIsNa (row.getD i CellVal.nan)
        else !cellIsNa (row.getD i CellVal.nan)

/-- `ExcelLoader._apply_drop_conditions`: the kept-row mask starts all-true
and each condition's mask is negated and ANDed in; the surviving rows keep
their order and the index is reset. -/
def applyDropConditions (df : DFrame) (conds : List DropCondition) : DFrame :=
  if conds.isEmpty || df.rows.isEmpty then df
  else
    { df with
      rows := df.rows.filter
        (fun r => conds.foldl (fun acc c => acc && !condMatches df c r) true) }

/-- The ASSISTED-mode `drop_regex` filter: rows whose *first* column renders
to a string matching the pattern are dropped; a dataframe with no columns is
left untouched (`len(df.columns) > 0` guard). -/
def dropRegexFilter (df : DFrame) (m : Str → Bool) : DFrame :=
  if 0 < df.cols.length then
    { df with rows := df.rows.filter (fun r => !m (pyStr (r.getD 0 CellVal.nan))) }
  else df

/-! ## Multi-table loading (`ExcelLoader._load_multi_table`) -/

/-- The `TableMeta` dataclass (`mcp_excel/models.py`). -/
structure TableMetaM where
  table_name : Str
  file : Str
  relpath : Str
  sheet : Str
  mode : Str
  mtime : ℚ
  ns : Str
  est_rows : Nat
deriving DecidableEq

/-- The `SheetOverride` fields `_load_multi_table` branches on; the fields it
merely passes through to the per-region loads live behind the abstract
loaders below. -/
structure MultiOverrideM where
  table_range : Option Str
  extract_table : Option Int

/-- Python truthiness of an `Optional[str]` field. -/
def optStrTruthy : Option Str → Bool
  | some s => !s.isEmpty
  | none => false

/-- The loading callbacks `_load_multi_table` delegates to, each returning a
raised exception or a `TableMeta`: `_load_table_range` (by region index and
registered table name), `_load_assisted`, and `_load_raw`. -/
structure MultiTableEnv where
  loadTableRange : Nat → Str → Except Str TableMetaM
  loadAssisted : Str → Except Str TableMetaM
  loadRaw : Str → Except Str TableMetaM

/-- `f"_table{idx}"`. -/
def tableTag (idx : Nat) : Str :=
  '_' :: 't' :: 'a' :: 'b' :: 'l' :: 'e' :: natToChars idx

def warnInvalidIdx : Str :=
  "invalid_extract_table_index".toList

/-- The `for idx, table_info in enumerate(...)` loop: each failing region is
skipped (`except ... continue`). -/
def loadRegionsLoop (env : MultiTableEnv) (ns relpath sheet : Str)
    (numTables : Nat) :
    List Nat → List TableMetaM → RegState → List TableMetaM × RegState
  | [], metas, reg => (metas, reg)
  | idx :: rest, metas, reg =>
    let suffix := if 1 < numTables then tableTag idx else []
    let r := register reg ns relpath (sheet ++ suffix) 0
    match env.loadTableRange idx r.1 with
    | .ok m => loadRegionsLoop env ns relpath sheet numTables rest (metas ++ [m]) r.2
    | .error _ => loadRegionsLoop env ns relpath sheet numTables rest metas r.2

/-- `ExcelLoader._load_multi_table`, returning the result (or the propagated
exception), the updated registry and the warning log events. -/
def loadMultiTable (env : MultiTableEnv) (reg : RegState)
    (ns relpath sheet : Str) (ov : MultiOverrideM) (ranges : List TableRange) :
    Except Str (List TableMetaM) × RegState × List Str :=
  if optStrTruthy ov.table_range then
    let r := register reg ns relpath sheet 0
    match env.loadAssisted r.1 with
    | .ok m => (.ok [m], r.2, [])
    | .error e => (.error e, r.2, [])
  else
    match ov.extract_table with
    | some et =>
      let clamp : Nat × List Str :=
        if et < 0 ∨ (ranges.length : Int) ≤ et then (0, [warnInvalidIdx])
        else (et.toNat, [])
      let suffix := if 1 < ranges.length then tableTag clamp.1 else []
      let r := register reg ns relpath (sheet ++ suffix) 0
      match env.loadTableRange clamp.1 r.1 with
      | .ok m => (.ok [m], r.2, clamp.2)
      | .error e => (.error e, r.2, clamp.2)
    | none =>
      let out := loadRegionsLoop env ns relpath sheet ranges.length
        (List.range ranges.length) [] reg
      if out.1.isEmpty then
        let r := register out.2 ns relpath sheet 0
        match env.loadRaw r.1 with
        | .ok m => (.ok [m], r.2, [])
        | .error e => (.error e, r.2, [])
      else (.ok out.1, out.2, [])

/-! ## Locale & type normalizer (`mcp_excel/loading/formats/normalizer.py`) -/

/-- The pandas dtype of a normalizer column. -/
inductive Dtype where
  | obj : Dtype
  | numeric : Dtype
  | dtime : Dtype
  | boolean : Dtype
deriving DecidableEq

/-- One normalizer column: its dtype and its cells (column-oriented, as every
stage acts per column; a three-valued bool column is kept under `boolean`
with `nan` holes, a representation detail no claim depends on). -/
structure NCol where
  dtype : Dtype
  vals : List CellVal
deriving DecidableEq

/-- A normalizer dataframe: labelled columns (labels assumed unique). -/
abbrev NDF := List (Str × NCol)

/-- The `options` dict of `DataNormalizer.normalize` with the defaults that
each `options.get(..., default)` call supplies. -/
structure NormalizeOpts where
  preserve_linebreaks : Bool := false
  custom_na_values : List Str := []
  empty_string_as_na : Bool := true
  drop_empty_rows : Bool := true
  drop_empty_cols : Bool := true
deriving DecidableEq

/-- Collapse each run of `cls`-characters to a single space (`re.sub` of a
character-class `+` pattern with `' '`); the flag records whether the
previous character belonged to a run. -/
def collapseClassRuns (cls : Char → Bool) : Bool → Str → Str
  | _, [] => []
  | inRun, c :: rest =>
    if cls c then
      if inRun then collapseClassRuns cls true rest
      else ' ' :: collapseClassRuns cls true rest
    else c :: collapseClassRuns cls false rest

/-- The per-cell chain of `clean_whitespace`: `strip`, `\s+ -> ' '`,
`'\xa0' -> ' '`, and (unless `preserve_linebreaks`) `[\r\n]+ -> ' '`. -/
def cleanOneString (opts : NormalizeOpts) (s : Str) : Str :=
  let s1 := stripPy s
  let s2 := collapseClassRuns isPyWsChar false s1
  let s3 := s2.map (fun c => if c = '\xa0' then ' ' else c)
  if opts.preserve_linebreaks then s3
  else collapseClassRuns (fun c => c = '\r' || c = '\n') false s3

/-- `DataNormalizer.clean_whitespace`: every object column is `astype(str)`
(so missing values become `"nan"`) and cleaned cell-wise. -/
def cleanWhitespace (df : NDF) (opts : NormalizeOpts) : NDF :=
  df.map (fun c =>
    if c.2.dtype = .obj then
      (c.1, ⟨.obj, c.2.vals.map (fun v => .str (cleanOneString opts (pyStr v)))⟩)
    else c)

/-- The `locale_config` dict installed through `set_locale`; separator values
may be python `None` (the loader forwards unset `LocaleConfig` fields). -/
structure LocaleCfgM where
  locale : Option Str := none
  decimal_separator : Option Str := none
  thousands_separator : Option Str := none
  currency_symbols : List Str := []
  auto_detect : Bool := true

/-- `[\d.,]+\d` run helper: largest index `k` of a digit in `l`. -/
def lastDigitIdx (l : Str) : Option Nat :=
  match l.reverse.findIdx? Char.isDigit with
  | some j => some (l.length - 1 - j)
  | none => none

/-- `re.search`-and-extract of `([\d.,]+\d)`: at the leftmost viable start,
the greedy class run backtracks until its final character is a digit with at
least one class character before it. -/
def extractNumberToken : Str → Option Str
  | [] => none
  | c :: rest =>
    if c.isDigit || c = '.' || c = ',' then
      let run := (c :: rest).takeWhile (fun d => d.isDigit || d = '.' || d = ',')
      match lastDigitIdx run with
      | some k => if 1 ≤ k then some (run.take (k + 1)) else extractNumberToken rest
      | none => extractNumberToken rest
    else extractNumberToken rest

/-- `re.search(r'\d,\d{2}$', s)`. -/
def hasCommaDecimalEnd (s : Str) : Bool :=
  match s.reverse with
  | z :: y :: x :: w :: _ => z.isDigit && y.isDigit && x = ',' && w.isDigit
  | _ => false

/-- `re.search(r'\d\.\d{2}$', s)`. -/
def hasDotDecimalEnd (s : Str) : Bool :=
  match s.reverse with
  | z :: y :: x :: w :: _ => z.isDigit && y.isDigit && x = '.' && w.isDigit
  | _ => false

/-- `re.search(r'\d\.\d{3}', s)`. -/
def hasDotThousands : Str → Bool
  | a :: b :: c :: d :: e :: rest =>
    (a.isDigit && b = '.' && c.isDigit && d.isDigit && e.isDigit) ||
      hasDotThousands (b :: c :: d :: e :: rest)
  | _ => false

/-- `re.search(r'\d,\d{3}', s)`. -/
def hasCommaThousands : Str → Bool
  | a :: b :: c :: d :: e :: rest =>
    (a.isDigit && b = ',' && c.isDigit && d.isDigit && e.isDigit) ||
      hasCommaThousands (b :: c :: d :: e :: rest)
  | _ => false

/-- The string samples `_detect_number_format` extracts from the object
columns (per column: `dropna().head(50).astype(str)`, then the regex
extraction, dropping non-matches). -/
def numberFormatSamples (df : NDF) : List Str :=
  df.foldl
    (fun acc c =>
      if c.2.dtype = .obj then
        acc ++ (((c.2.vals.filter (fun v => !cellIsNa v)).take 50).map pyStr).filterMap
          extractNumberToken
      else acc)
    []

/-- `DataNormalizer._detect_number_format`. -/
def detectNumberFormat (df : NDF) : Option Str × Option Str :=
  let samples := numberFormatSamples df
  if samples.isEmpty then (some ['.'], some [','])
  else
    let cd := samples.countP hasCommaDecimalEnd
    let dd := samples.countP hasDotDecimalEnd
    let dt := samples.countP hasDotThousands
    let ct := samples.countP hasCommaThousands
    if cd > dd ∧ dt > ct then (some [','], some ['.'])
    else (some ['.'], some [','])

/-- `DataNormalizer._get_locale_separators`. -/
def getLocaleSeparators (cfg : Option LocaleCfgM) (df : NDF) :
    Option Str × Option Str :=
  match cfg with
  | some c =>
    if !c.auto_detect then (c.decimal_separator, c.thousands_separator)
    else detectNumberFormat df
  | none => detectNumberFormat df

/-- Character class of `[\d,. ]` (and of `[0-9,. ]`). -/
def isNumBodyChar (c : Char) : Bool := c.isDigit || c = ',' || c = '.' || c = ' '

def isCurrencyChar (c : Char) : Bool :=
  c = '$' || c = '€' || c = '£' || c = '¥' || c = '₹'

/-- One alternative-wise match of
`^[+-]?[\d,. ]+$|^\([0-9,. ]+\)$|^[$€£¥₹][0-9,. ]+$`. -/
def matchNumPattern (s : Str) : Bool :=
  (let b := match s with
    | '+' :: r => r
    | '-' :: r => r
    | r => r
   !b.isEmpty && b.all isNumBodyChar) ||
  (match s with
   | '(' :: r =>
      match r.getLast? with
      | some ')' => !r.dropLast.isEmpty && r.dropLast.all isNumBodyChar
      | _ => false
   | _ => false) ||
  (match s with
   | c :: r => isCurrencyChar c && !r.isEmpty && r.all isNumBodyChar
   | [] => false)

/-- `DataNormalizer._looks_like_numbers`: more than half of the sampled
strings match. -/
def looksLikeNumbers (sample : List Str) : Bool :=
  if sample.isEmpty then false
  else 2 * sample.countP matchNumPattern > sample.length

/-- Python `str.replace(pat, repl)` (all occurrences, left to right); the
fuel is the string length, always sufficient for a non-empty pattern. -/
def replaceAllAux (pat repl : Str) : Nat → Str → Str
  | _, [] => []
  | 0, s => s
  | fuel + 1, c :: rest =>
    if pat.isPrefixOf (c :: rest) then
      repl ++ replaceAllAux pat repl fuel ((c :: rest).drop pat.length)
    else c :: replaceAllAux pat repl fuel rest

def replaceAll (s pat repl : Str) : Str :=
  if pat.isEmpty then s else replaceAllAux pat repl s.length s

/-- `series.str.replace(r'^\((.*)\)$', r'-\1', regex=True)` on one string. -/
def parensToMinus (s : Str) : Str :=
  match s with
  | '(' :: r =>
    match r.getLast? with
    | some ')' => '-' :: r.dropLast
    | _ => s
  | _ => s

/-- The string-rewriting chain of `normalize_numbers` applied to one cell's
`astype(str)` rendering: configured currency symbols, the currency character
class, the thousands separator, the decimal separator, parenthesised
negatives, then spaces. -/
def normalizeNumberString (curr : List Str) (decS thouS : Option Str) (s0 : Str) : Str :=
  let s1 := curr.foldl (fun s sym => replaceAll s sym []) s0
  let s2 := s1.filter (fun c => !isCurrencyChar c)
  let s3 := if optStrTruthy thouS then replaceAll s2 (thouS.getD []) [] else s2
  let s4 :=
    if optStrTruthy decS && decide (decS.getD [] ≠ ['.']) then
      replaceAll s3 (decS.getD []) ['.']
    else s3
  let s5 := parensToMinus s4
  s5.filter (fun c => c ≠ ' ')

/-- `DataNormalizer.normalize_numbers`. -/
def normalizeNumbers (cfg : Option LocaleCfgM) (df : NDF) (_opts : NormalizeOpts) :
    NDF :=
  let seps := getLocaleSeparators cfg df
  let curr := match cfg with | some c => c.currency_symbols | none => []
  df.map (fun c =>
    if c.2.dtype = .obj then
      let sample := ((c.2.vals.filter (fun v => !cellIsNa v)).take 100).map pyStr
      if looksLikeNumbers sample then
        (c.1, ⟨.numeric, c.2.vals.map (fun v =>
          toNumericCell (.str (normalizeNumberString curr seps.1 seps.2 (pyStr v))))⟩)
      else c
    else c)

/-- `pd.api.types.is_numeric_dtype` (bool dtypes count as numeric). -/
def dtypeIsNumeric : Dtype → Bool
  | .numeric => true
  | .boolean => true
  | _ => false

/-- The numeric value pandas comparisons see for a numeric/bool cell. -/
def cellAsQ : CellVal → ℚ
  | .num q => q
  | .boolv b => if b then 1 else 0
  | _ => 0

/-- `DataNormalizer.normalize_dates`; `dp` is the pandas generic string date
parser (`pd.to_datetime(..., errors='coerce')` on one string, `none` = NaT),
an external library call supplied as a parameter. -/
def normalizeDates (dp : Str → Option ℚ) (df : NDF) (_opts : NormalizeOpts) : NDF :=
  df.map (fun c =>
    if dtypeIsNumeric c.2.dtype then
      let sample := c.2.vals.filter (fun v => !cellIsNa v)
      if !sample.isEmpty ∧ sample.all (fun v => qLeB 1 (cellAsQ v)) ∧
          sample.all (fun v => qLeB (cellAsQ v) 60000) ∧
          10 * sample.countP (fun v => (cellAsQ v).den = 1) > 9 * sample.length then
        (c.1, ⟨.dtime, c.2.vals.map (fun v =>
          if cellIsNa v then .nan else .date (cellAsQ v))⟩)
      else c
    else if c.2.dtype = .obj then
      let parsed : List CellVal := c.2.vals.map (fun v =>
        match v with
        | .str s => match dp s with | some d => .date d | none => .nan
        | _ => .nan)
      if 2 * parsed.countP (fun v => !cellIsNa v) > c.2.vals.length then
        (c.1, ⟨.dtime, parsed⟩)
      else c
    else c)

/-- The built-in sentinel vocabulary of `handle_missing_values`. -/
def baseSentinels : List Str :=
  ["NA", "N/A", "n/a", "#N/A", "null", "NULL", "None", "NONE",
   "-", "--", "---", ".", "..", "...", "?", "??", "???",
   "nan", "NaN", "NAN"].map String.toList

/-- `df.replace(values, np.nan)` cell-wise: only equal (string) cells are
replaced. -/
def replaceWithNa (targets : List Str) (v : CellVal) : CellVal :=
  match v with
  | .str s => if s ∈ targets then .nan else v
  | _ => v

def mapCells (f : CellVal → CellVal) (df : NDF) : NDF :=
  df.map (fun c => (c.1, { c.2 with vals := c.2.vals.map f }))

/-- Row count of an aligned dataframe. -/
def numRows : NDF → Nat
  | [] => 0
  | c :: _ => c.2.vals.length

/-- `df.dropna(how='all')`. -/
def dropEmptyRowsDF (df : NDF) : NDF :=
  let keep := (List.range (numRows df)).filter
    (fun i => !df.all (fun c => cellIsNa (c.2.vals.getD i .nan)))
  df.map (fun c => (c.1, { c.2 with vals := keep.map (fun i => c.2.vals.getD i .nan) }))

/-- `df.dropna(axis=1, how='all')`. -/
def dropEmptyColsDF (df : NDF) : NDF :=
  df.filter (fun c => !c.2.vals.all cellIsNa)

/-- `DataNormalizer.handle_missing_values`. -/
def handleMissingValues (df : NDF) (opts : NormalizeOpts) : NDF :=
  let sent := baseSentinels ++ opts.custom_na_values
  let df1 := mapCells (replaceWithNa sent) df
  let df2 :=
    if opts.empty_string_as_na then
      mapCells (replaceWithNa [['n', 'a', 'n']]) (mapCells (replaceWithNa [[]]) df1)
    else df1
  let df3 := if opts.drop_empty_rows then dropEmptyRowsDF df2 else df2
  if opts.drop_empty_cols then dropEmptyColsDF df3 else df3

/-- The true/false vocabulary of `fix_data_types`. -/
def boolVocab : List Str :=
  ["true", "false", "yes", "no", "1", "0", "t", "f", "y", "n"].map String.toList

/-- The `bool_map` dict. -/
def boolMapLookup (s : Str) : Option Bool :=
  if s = "true".toList ∨ s = "yes".toList ∨ s = "1".toList ∨ s = "t".toList ∨
      s = "y".toList then some true
  else if s = "false".toList ∨ s = "no".toList ∨ s = "0".toList ∨
      s = "f".toList ∨ s = "n".toList then some false
  else none

/-- pandas `.unique()`: first occurrences in order. -/
def uniqFirst (seen : List Str) : List Str → List Str
  | [] => []
  | x :: rest =>
    if x ∈ seen then uniqFirst seen rest else x :: uniqFirst (x :: seen) rest

/-- `DataNormalizer.fix_data_types`. -/
def fixDataTypes (df : NDF) (_opts : NormalizeOpts) : NDF :=
  df.map (fun c =>
    if c.2.dtype = .obj then
      let nonNull := c.2.vals.filter (fun v => !cellIsNa v)
      if nonNull.isEmpty then c
      else
        let uniq := uniqFirst [] (nonNull.map (fun v => lowerChars (pyStr v)))
        if uniq.length ≤ 4 && uniq.all (fun u => u ∈ boolVocab) then
          (c.1, ⟨.boolean, c.2.vals.map (fun v =>
            match boolMapLookup (lowerChars (pyStr v)) with
            | some b => .boolv b
            | none => .nan)⟩)
        else
          let numeric := nonNull.map toNumericCell
          if 10 * numeric.countP (fun v => !cellIsNa v) > 9 * nonNull.length then
            (c.1, ⟨.numeric, c.2.vals.map toNumericCell⟩)
          else c
    else c)

/-- `DataNormalizer.normalize`: the five stages in their fixed order. -/
def normalizeDF (cfg : Option LocaleCfgM) (dp : Str → Option ℚ) (df : NDF)
    (opts : NormalizeOpts) : NDF :=
  fixDataTypes
    (handleMissingValues
      (normalizeDates dp
        (normalizeNumbers cfg (cleanWhitespace df opts) opts) opts) opts) opts

/-! ## Concrete instances used by counterexamples and witnesses -/

/-- A one-column dataframe holding the single string `"1e3"`. -/
def dfExp : NDF := [(['a'], ⟨.obj, [.str ('1' :: 'e' :: '3' :: [])]⟩)]

/-- A date parser agreeing with `pd.to_datetime(..., errors='coerce')` on
the only string it is ever applied to here: `"1e3"` is not a date. -/
def dpNone : Str → Option ℚ := fun _ => none

/-- The explicit European locale of the parsing scenario:
`decimal_separator=","`, `thousands_separator="."`, auto-detect disabled. -/
def cfgEuro : LocaleCfgM :=
  { decimal_separator := some [','], thousands_separator := some ['.'],
    auto_detect := false }

/-- A one-column dataframe holding the single string `"1.234,56"`. -/
def dfEuro : NDF := [(['v'], ⟨.obj, [.str "1.234,56".toList]⟩)]

/-- Dataframe with a `Status` column, for the drop-condition witness. -/
def dfStatus : DFrame :=
  ⟨["Status".toList, "Val".toList],
   [[.str "keep".toList, .num 1],
    [.str "DELETED".toList, .num 2],
    [.str "also".toList, .num 3]]⟩

/-- The `{"column": "Status", "equals": "DELETED"}` drop condition. -/
def statusDeletedCond : DropCondition :=
  ⟨"Status".toList, .equalsOp (.str "DELETED".toList)⟩

/-- Dataframe for the drop-regex witness. -/
def dfRegexW : DFrame :=
  ⟨["A".toList, "B".toList],
   [[.str "Total".toList, .num 1],
    [.str "row".toList, .str "Total".toList]]⟩

/-- Matcher for the pattern `Total` anchored at the string start. -/
def totalAtStart : Str → Bool := fun s => "Total".toList.isPrefixOf s

/-- An analysis attempt on a nonexistent file: the `file_path.stat()` call
(made before the `try` block) raises. -/
def attStatFail : AnalyzeAttempt :=
  ⟨.error "FileNotFoundError".toList, .ok defaultStructureInfo⟩

/-- An analysis attempt whose stat succeeds but whose body (workbook load or
any detection step) raises. -/
def attBodyFail : AnalyzeAttempt :=
  ⟨.ok "100.0".toList, .error "boom".toList⟩

/-- Concrete pieces for the multi-table clamping witness. -/
def mWit : TableMetaM :=
  ⟨"t".toList, "f".toList, "f.xlsx".toList, "S".toList, "ASSISTED".toList, 0,
    "excel".toList, 1⟩

def envWit : MultiTableEnv :=
  ⟨fun _ _ => .ok mWit, fun _ => .ok mWit, fun _ => .ok mWit⟩

def rangesWit : List TableRange :=
  [⟨1, 2, 1, 2, true, some 1, mkRat 9 10, none⟩,
   ⟨4, 5, 1, 2, true, some 4, mkRat 9 10, none⟩]

def ovWit : MultiOverrideM := ⟨none, some 10⟩

/-- An 80-character path component, long enough to force truncation. -/
def longBs : Str := List.replicate 80 'b'

/-- A 1x1 sheet holding the single text cell `"Name"`. -/
def gridOneText : GridM :=
  fun r c => if r = 1 ∧ c = 1 then .text "Name".toList else .empty

/-- A 1x1 sheet holding the single numeric cell `5`. -/
def gridOneNum : GridM :=
  fun r c => if r = 1 ∧ c = 1 then .num 5 else .empty

/-- The 1x1 bounding box. -/
def regOne : RegionM := ⟨1, 1, 1, 1⟩

/-- Header row over one numeric row: `"H"` then `5`. -/
def gridHeaderNum : GridM :=
  fun r c =>
    if r = 1 ∧ c = 1 then .text "H".toList
    else if r = 2 ∧ c = 1 then .num 5
    else .empty

/-- The 2x1 bounding box. -/
def regTwo : RegionM := ⟨1, 2, 1, 1⟩

/-- A sheet whose data rows are split by a single blank row:
`"A"`, `1`, blank, `2`. -/
def gridSingleBlank : GridM :=
  fun r c =>
    if r = 1 ∧ c = 1 then .text "A".toList
    else if r = 2 ∧ c = 1 then .num 1
    else if r = 4 ∧ c = 1 then .num 2
    else .empty

/-- The 4x1 bounding box. -/
def regFour : RegionM := ⟨1, 4, 1, 1⟩

-- ===== THEOREMS =====

/-- A conjunction folded over a list equals `all`. -/
theorem foldlAndEqAll {α : Type} (f : α → Bool) (l : List α) (b : Bool) :
    l.foldl (fun acc x => acc && f x) b = (b && l.all f) := by
  induction l generalizing b with
  | nil => simp
  | cons x xs ih => simp [List.all_cons, ih, Bool.and_assoc]

/-- C4: the spec (and the claim) promise that re-running the five-stage
`normalize` on its own output is value-identical to one run.  The code
violates this: on the single string column `["1e3"]` with default options,
the first pass leaves the string alone until `fix_data_types` coerces it to
the float `1000.0`, and the second pass's `normalize_dates` then reinterprets
that integral float in `[1, 60000]` as an Excel day serial, producing a
timestamp.  This theorem evaluates the translated code at that input. -/
theorem c4_normalize_not_idempotent :
    normalizeDF none dpNone dfExp {} = [(['a'], ⟨.numeric, [.num 1000]⟩)] ∧
    normalizeDF none dpNone (normalizeDF none dpNone dfExp {}) {} =
      [(['a'], ⟨.dtime, [.date 1000]⟩)] ∧
    normalizeDF none dpNone (normalizeDF none dpNone dfExp {}) {} ≠
      normalizeDF none dpNone dfExp {} := by
  refine ⟨by decide, by decide, by decide⟩

/-- C9: `normalize_numbers` with the explicit locale `decimal_separator=","`,
`thousands_separator="."` (auto-detect disabled) turns the string
`"1.234,56"` into the numeric value `1234.56`: the thousands separator is
stripped and the decimal separator is rewritten to a period before numeric
conversion. -/
theorem c9_european_number_parse :
    normalizeNumbers (some cfgEuro) dfEuro {} =
      [(['v'], ⟨.numeric, [.num (mkRat 123456 100)]⟩)] := by
  decide

/-- C7: `_apply_drop_conditions` keeps the column set, removes exactly the
rows matched by at least one condition while preserving the order of the
remaining rows (the kept rows are a filter of the originals), treats a
condition whose column is absent as matching no row, and in particular the
condition `{"column": "Status", "equals": "DELETED"}` removes exactly the
rows whose `Status` cell equals the string `"DELETED"`. -/
theorem c7_drop_conditions_spec (df : DFrame) (conds : List DropCondition) :
    (applyDropConditions df conds).cols = df.cols ∧
    (applyDropConditions df conds).rows =
      df.rows.filter (fun r => conds.all (fun c => !condMatches df c r)) ∧
    (∀ cond row, colIdx df cond.column = none → condMatches df cond row = false) ∧
    (∀ i, colIdx df "Status".toList = some i →
      (applyDropConditions df [statusDeletedCond]).rows =
        df.rows.filter
          (fun r => !pyEq (r.getD i CellVal.nan) (.str "DELETED".toList))) := by
  have habsent : ∀ cond row, colIdx df cond.column = none →
      condMatches df cond row = false := by
    intro cond row h
    unfold condMatches
    by_cases he : cond.column.isEmpty
    · simp [he]
    · simp [he, h]
  have hrows : ∀ cs : List DropCondition, (applyDropConditions df cs).rows =
      df.rows.filter (fun r => cs.all (fun c => !condMatches df c r)) := by
    intro cs
    unfold applyDropConditions
    by_cases h1 : cs.isEmpty
    · have h1e : cs = [] := by cases cs with | nil => rfl | cons a l => cases h1
      subst h1e
      simp
    · by_cases h2 : df.rows.isEmpty
      · have h2e : df.rows = [] := by
          cases hv : df.rows with
          | nil => rfl
          | cons a l => rw [hv] at h2; cases h2
        simp [h1, h2, h2e]
      · simp [h1, h2, foldlAndEqAll]
  refine ⟨?_, hrows conds, habsent, ?_⟩
  · unfold applyDropConditions
    split <;> rfl
  · intro i hi
    have hi2 : colIdx df (['S', 't', 'a', 't', 'u', 's'] : Str) = some i := hi
    rw [hrows [statusDeletedCond]]
    apply List.filter_congr
    intro r _
    simp [statusDeletedCond, condMatches, hi2]

/-- Witness for C7 at a concrete dataframe: the `DELETED` row (and only it)
is dropped and the remaining rows keep their order. -/
theorem c7_drop_conditions_witness :
    (applyDropConditions dfStatus [statusDeletedCond]).rows =
      [[.str "keep".toList, .num 1], [.str "also".toList, .num 3]] := by
  rw [(c7_drop_conditions_spec dfStatus [statusDeletedCond]).2.2.2 0 (by decide)]
  decide

/-- C10: in ASSISTED loading the `drop_regex` filter reads only the string
rendering of the first column: with at least one column, a row is dropped
precisely when its first-column value matches, whatever the other columns
hold; with zero columns the dataframe is returned untouched. -/
theorem c10_drop_regex_first_column (df : DFrame) (m : Str → Bool) :
    (dropRegexFilter df m).cols = df.cols ∧
    (df.cols ≠ [] → (dropRegexFilter df m).rows =
      df.rows.filter (fun r => !m (pyStr (r.getD 0 CellVal.nan)))) ∧
    (df.cols = [] → dropRegexFilter df m = df) := by
  by_cases h : 0 < df.cols.length
  · have hne : df.cols ≠ [] := by
      intro he
      rw [he] at h
      simp at h
    exact ⟨by simp [dropRegexFilter, h], fun _ => by simp [dropRegexFilter, h],
      fun he => absurd he hne⟩
  · have he : df.cols = [] := List.eq_nil_of_length_eq_zero (by omega)
    exact ⟨by simp [dropRegexFilter, h], fun hne => absurd he hne,
      fun _ => by simp [dropRegexFilter, h]⟩

/-- Witness for C10: the matcher fires on the first column only — the first
row is dropped for its first cell, the second row survives although its
second cell renders to a matching string. -/
theorem c10_drop_regex_witness :
    (dropRegexFilter dfRegexW totalAtStart).rows =
      [[.str "row".toList, .str "Total".toList]] := by
  rw [(c10_drop_regex_first_column dfRegexW totalAtStart).2.1 (by decide)]
  decide

/-- C1 counterexample: the claim states that `analyze_structure` never
propagates an exception for any file path, but the `file_path.stat()` call
happens before the `try` block, so analysing a nonexistent file raises
instead of returning the conservative default. -/
theorem c1_stat_failure_propagates :
    analyzeStructure ⟨[], 128⟩ "missing.xlsx".toList "Sheet1".toList attStatFail =
      .error "FileNotFoundError".toList := rfl

/-- C1 (amended): once the initial `stat` has succeeded, `analyze_structure`
never propagates: it always returns a result, and whenever the cache misses
and any step inside the `try` block fails it returns the conservative
default `StructureInfo` — bounding box the single cell (1,1)-(1,1),
`header_row = None` with confidence 0.0, locale `en_US` with `'.'` decimal
and `','` thousands separators. -/
theorem c1_default_on_internal_failure (st : LruState) (fp sheet m : Str)
    (att : AnalyzeAttempt) (hstat : att.statMtime = .ok m) :
    (∃ out, analyzeStructure st fp sheet att = .ok out) ∧
    (∀ e, att.body = .error e →
      (lruGet st (cacheKey fp sheet m)).1 = none →
      analyzeStructure st fp sheet att =
        .ok (defaultStructureInfo, (lruGet st (cacheKey fp sheet m)).2)) ∧
    defaultStructureInfo.data_start_row = 1 ∧
    defaultStructureInfo.data_end_row = 1 ∧
    defaultStructureInfo.data_start_col = 1 ∧
    defaultStructureInfo.data_end_col = 1 ∧
    defaultStructureInfo.header_row = none ∧
    defaultStructureInfo.header_confidence = 0 ∧
    defaultStructureInfo.detected_locale = "en_US".toList ∧
    defaultStructureInfo.decimal_separator = ['.'] ∧
    defaultStructureInfo.thousands_separator = [','] := by
  refine ⟨?_, ?_, rfl, rfl, rfl, rfl, rfl, rfl, rfl, rfl, rfl⟩
  · rcases hg : lruGet st (cacheKey fp sheet m) with ⟨o, st2⟩
    cases o with
    | some si => exact ⟨(si, st2), by simp [analyzeStructure, hstat, hg]⟩
    | none =>
      cases hb : att.body with
      | error e =>
        exact ⟨(defaultStructureInfo, st2), by simp [analyzeStructure, hstat, hg, hb]⟩
      | ok si =>
        exact ⟨(si, lruPut st2 (cacheKey fp sheet m) si),
          by simp [analyzeStructure, hstat, hg, hb]⟩
  · intro e hb hmiss
    rcases hg : lruGet st (cacheKey fp sheet m) with ⟨o, st2⟩
    rw [hg] at hmiss
    simp only at hmiss
    subst hmiss
    simp [analyzeStructure, hstat, hg, hb]

/-- Witness for C1 (amended) at a concrete failing body. -/
theorem c1_default_witness :
    analyzeStructure ⟨[], 128⟩ "a.xlsx".toList "S".toList attBodyFail =
      .ok (defaultStructureInfo, ⟨[], 128⟩) := by
  exact (c1_default_on_internal_failure ⟨[], 128⟩ "a.xlsx".toList "S".toList
    "100.0".toList attBodyFail rfl).2.1 "boom".toList rfl rfl

/-- C8: with auto-detected tables, no `table_range`, and an `extract_table`
index outside `[0, len(tables))` on a sheet with more than one detected
table, `_load_multi_table` does not raise on account of the bad index: the
selection is clamped to index 0, the `invalid_extract_table_index` warning
is logged, and exactly one table is loaded (under the `_table0` name
suffix). -/
theorem c8_extract_table_clamped (env : MultiTableEnv) (reg : RegState)
    (ns relpath sheet : Str) (ov : MultiOverrideM) (ranges : List TableRange)
    (et : Int) (m : TableMetaM)
    (hrange : optStrTruthy ov.table_range = false)
    (het : ov.extract_table = some et)
    (hoob : et < 0 ∨ (ranges.length : Int) ≤ et)
    (hmulti : 1 < ranges.length)
    (hload : env.loadTableRange 0
      (register reg ns relpath (sheet ++ tableTag 0) 0).1 = .ok m) :
    loadMultiTable env reg ns relpath sheet ov ranges =
      (.ok [m], (register reg ns relpath (sheet ++ tableTag 0) 0).2,
        [warnInvalidIdx]) := by
  simp only [loadMultiTable, hrange, Bool.false_eq_true, if_false, het,
    if_pos hoob, if_pos hmulti, hload]

/-- Witness for C8: `extract_table = 10` against two detected tables. -/
theorem c8_extract_table_witness :
    loadMultiTable envWit ⟨[], []⟩ "excel".toList "f.xlsx".toList "S".toList
        ovWit rangesWit =
      (.ok [mWit],
        (register ⟨[], []⟩ "excel".toList "f.xlsx".toList
          ("S".toList ++ tableTag 0) 0).2,
        [warnInvalidIdx]) := by
  exact c8_extract_table_clamped envWit ⟨[], []⟩ "excel".toList "f.xlsx".toList
    "S".toList ovWit rangesWit 10 mWit rfl rfl (Or.inr (by decide))
    (by decide) rfl

/-- C6: starting from an empty registry, registering the same
(namespace, relpath, sheet) triple three times yields the base name, then
the base with `_2` appended, then the base with `_3` appended; in
particular the first two names differ. -/
theorem c6_register_collision_suffixes (ns relpath sheet : Str) :
    (register (register ⟨[], []⟩ ns relpath sheet 0).2 ns relpath sheet 0).1 =
      (register ⟨[], []⟩ ns relpath sheet 0).1 ++ ['_', '2'] ∧
    (register (register (register ⟨[], []⟩ ns relpath sheet 0).2
        ns relpath sheet 0).2 ns relpath sheet 0).1 =
      (register ⟨[], []⟩ ns relpath sheet 0).1 ++ ['_', '3'] ∧
    (register ⟨[], []⟩ ns relpath sheet 0).1 ≠
      (register (register ⟨[], []⟩ ns relpath sheet 0).2 ns relpath sheet 0).1 := by
  set b := buildAndSanitize ns relpath sheet 0 with hb
  have hn2 : natToChars 2 = ['2'] := rfl
  have hn3 : natToChars 3 = ['3'] := rfl
  have h2 : ¬(b ++ ['_', '2'] = b) := by
    intro h
    have := congrArg List.length h
    simp at this
  have h3 : ¬(b ++ ['_', '3'] = b) := by
    intro h
    have := congrArg List.length h
    simp at this
  have h2s : ¬(b = b ++ ['_', '2']) := fun h => h2 h.symm
  have h32 : ¬(b ++ ['_', '3'] = b ++ ['_', '2']) := by
    intro h
    have := List.append_cancel_left h
    simp at this
  have e1 : register ⟨[], []⟩ ns relpath sheet 0 = (b, ⟨[b], []⟩) := by
    simp [register, handleCollision, hb]
  have e2 : register ⟨[b], []⟩ ns relpath sheet 0 =
      (b ++ ['_', '2'], ⟨[b ++ ['_', '2'], b], [(b, 1)]⟩) := by
    simp [register, handleCollision, hb, bumpCount, lookupCount, findFreeNum,
      hn2, h2]
  have e3 : register ⟨[b ++ ['_', '2'], b], [(b, 1)]⟩ ns relpath sheet 0 =
      (b ++ ['_', '3'],
        ⟨[b ++ ['_', '3'], b ++ ['_', '2'], b], [(b, 2)]⟩) := by
    simp [register, handleCollision, hb, bumpCount, lookupCount, findFreeNum,
      hn2, hn3, h2, h3, h2s, h32]
  rw [e1, e2, e3]
  exact ⟨rfl, rfl, fun h => h2 h.symm⟩

/-- Characters survive `squeezeUnd` only as underscores or originals. -/
theorem mem_squeezeUnd : ∀ (s : Str) (b : Bool) (c : Char),
    c ∈ squeezeUnd b s → c = '_' ∨ c ∈ s := by
  intro s
  induction s with
  | nil => intro b c h; cases h
  | cons d rest ih =>
    intro b c h
    by_cases hd : d = '_'
    · subst hd
      simp only [squeezeUnd, if_pos rfl] at h
      cases b with
      | true =>
        rcases ih true c h with h1 | h2
        · exact Or.inl h1
        · exact Or.inr (List.mem_cons_of_mem _ h2)
      | false =>
        rcases List.mem_cons.mp h with rfl | h2
        · exact Or.inl rfl
        · rcases ih true c h2 with h3 | h4
          · exact Or.inl h3
          · exact Or.inr (List.mem_cons_of_mem _ h4)
    · simp only [squeezeUnd, if_neg hd] at h
      rcases List.mem_cons.mp h with rfl | h2
      · exact Or.inr (List.mem_cons_self _ _)
      · rcases ih false c h2 with h3 | h4
        · exact Or.inl h3
        · exact Or.inr (List.mem_cons_of_mem _ h4)

/-- `stripUnd` only removes characters. -/
theorem mem_stripUnd {s : Str} {c : Char} (h : c ∈ stripUnd s) : c ∈ s := by
  unfold stripUnd at h
  rw [List.mem_reverse] at h
  have h2 := (List.dropWhile_sublist _).subset h
  rw [List.mem_reverse] at h2
  exact (List.dropWhile_sublist _).subset h2

/-- Every character of a sanitized component lies in `[a-z0-9_$]`. -/
theorem mem_sanitizeComponent {s : Str} {c : Char}
    (h : c ∈ sanitizeComponent s) : isBaseChar c = true := by
  unfold sanitizeComponent at h
  rcases mem_squeezeUnd _ _ _ (mem_stripUnd h) with rfl | h2
  · decide
  · exact List.of_mem_filter h2

/-- Characters of a dot-joined name come from the parts or are the dot. -/
theorem mem_joinDots : ∀ (parts : List Str) (c : Char),
    c ∈ joinDots parts → c = '.' ∨ ∃ p ∈ parts, c ∈ p := by
  intro parts
  induction parts with
  | nil => intro c h; cases h
  | cons p rest ih =>
    intro c h
    cases rest with
    | nil => exact Or.inr ⟨p, by simp, h⟩
    | cons q rest2 =>
      rcases List.mem_append.mp h with h1 | h2
      · exact Or.inr ⟨p, by simp, h1⟩
      · rcases List.mem_cons.mp h2 with rfl | h3
        · exact Or.inl rfl
        · rcases ih c h3 with h4 | ⟨p2, hp2, hc2⟩
          · exact Or.inl h4
          · exact Or.inr ⟨p2, by simp [hp2], hc2⟩

theorem digitChar_isDigit {d : Nat} (h : d < 10) : (digitChar d).isDigit = true := by
  interval_cases d <;> decide

/-- The decimal rendering of a natural number consists of digits. -/
theorem mem_natToCharsAux : ∀ (fuel n : Nat) (c : Char),
    c ∈ natToCharsAux fuel n → c.isDigit = true := by
  intro fuel
  induction fuel with
  | zero => intro n c h; cases h
  | succ k ih =>
    intro n c h
    unfold natToCharsAux at h
    by_cases hn : n = 0
    · rw [if_pos hn] at h; cases h
    · rw [if_neg hn] at h
      rcases List.mem_append.mp h with h1 | h2
      · exact ih _ c h1
      · rcases List.mem_cons.mp h2 with rfl | h3
        · exact digitChar_isDigit (Nat.mod_lt _ (by omega))
        · cases h3

theorem mem_natToChars {n : Nat} {c : Char} (h : c ∈ natToChars n) :
    c.isDigit = true := by
  unfold natToChars at h
  by_cases hn : n = 0
  · rw [if_pos hn] at h
    rcases List.mem_cons.mp h with rfl | h2
    · decide
    · cases h2
  · rw [if_neg hn] at h
    exact mem_natToCharsAux n n c h

theorem mem_coreParts {sp : List Str} {p : Str} (h : p ∈ coreParts sp) :
    p ∈ sp ∨ p = tableChars := by
  unfold coreParts at h
  by_cases h1 : sp.length = 1
  · rw [if_pos h1] at h
    rcases List.mem_append.mp h with h2 | h3
    · exact Or.inl h2
    · rcases List.mem_cons.mp h3 with rfl | h4
      · exact Or.inr rfl
      · cases h4
  · rw [if_neg h1] at h
    exact Or.inl h

theorem mem_tableChars {c : Char} (h : c ∈ tableChars) : isNameChar c = true := by
  simp only [tableChars, List.mem_cons, List.not_mem_nil, or_false] at h
  rcases h with rfl | rfl | rfl | rfl | rfl <;> decide

theorem mem_namePrefixed {sp2 : List Str} {c : Char} (h : c ∈ namePrefixed sp2) :
    c ∈ tUndChars ∨ c ∈ joinDots sp2 := by
  unfold namePrefixed at h
  split at h
  · exact (List.mem_append.mp h).imp id id
  · split at h
    · exact (List.mem_append.mp h).imp id id
    · exact Or.inr h

theorem mem_truncate63 {s : Str} {c : Char} (h : c ∈ truncate63 s) : c ∈ s := by
  unfold truncate63 at h
  split at h
  · exact List.take_subset _ _ h
  · exact h

/-- Every character of a built name lies in `[a-z0-9_$.]`. -/
theorem mem_buildAndSanitize {ns relpath sheet : Str} {region : Nat} {c : Char}
    (h : c ∈ buildAndSanitize ns relpath sheet region) : isNameChar c = true := by
  unfold buildAndSanitize at h
  split at h
  · exact mem_tableChars h
  · rcases mem_namePrefixed (mem_truncate63 h) with h1 | h2
    · rcases List.mem_cons.mp h1 with rfl | h3
      · decide
      · rcases List.mem_cons.mp h3 with rfl | h4
        · decide
        · cases h4
    · rcases mem_joinDots _ _ h2 with rfl | ⟨p, hp, hc⟩
      · decide
      · rcases mem_coreParts hp with hp2 | rfl
        · have hp3 := (List.mem_filter.mp hp2).1
          rcases List.mem_map.mp hp3 with ⟨orig, _, rfl⟩
          simp [isNameChar, mem_sanitizeComponent hc]
        · exact mem_tableChars hc

theorem nameHeadDigit_truncate63 (s : Str) :
    nameHeadDigit (truncate63 s) = nameHeadDigit s := by
  unfold truncate63
  split
  · cases s with
    | nil => rfl
    | cons a t => rfl
  · rfl

theorem nameHeadDigit_namePrefixed (sp2 : List Str) :
    nameHeadDigit (namePrefixed sp2) = false := by
  unfold namePrefixed
  split
  · rfl
  · split
    · rfl
    · rename_i h _
      cases hj : joinDots sp2 with
      | nil => rfl
      | cons a t =>
        rw [hj] at h
        simpa [nameHeadDigit] using h

/-- A built name never starts with a digit. -/
theorem nameHeadDigit_buildAndSanitize (ns relpath sheet : Str) (region : Nat) :
    nameHeadDigit (buildAndSanitize ns relpath sheet region) = false := by
  unfold buildAndSanitize
  split
  · rfl
  · rw [nameHeadDigit_truncate63, nameHeadDigit_namePrefixed]

/-- A built name is at most 63 characters long. -/
theorem length_buildAndSanitize (ns relpath sheet : Str) (region : Nat) :
    (buildAndSanitize ns relpath sheet region).length ≤ 63 := by
  unfold buildAndSanitize
  split
  · decide
  · unfold truncate63
    split
    · rw [List.length_take]; omega
    · omega

theorem nameHeadDigit_append_tail {base tail : Str}
    (h : nameHeadDigit base = false) :
    nameHeadDigit (base ++ '_' :: tail) = false := by
  cases base with
  | nil => rfl
  | cons a t => exact h

/-- C5 counterexample: the claim restricts registered names to
`[a-z0-9_.]` with length at most 63, but `_sanitize_component` keeps `$`
(its regex is `[^a-z0-9_$]`), and a collision suffix is appended after the
63-character truncation: registering `("a$", "b"*80, "s")` twice from an
empty registry yields a first name containing `$` and a second name of
length 65. -/
theorem c5_charset_length_counterexample :
    '$' ∈ (register ⟨[], []⟩ "a$".toList longBs "s".toList 0).1 ∧
    (register (register ⟨[], []⟩ "a$".toList longBs "s".toList 0).2
        "a$".toList longBs "s".toList 0).1.length = 65 := by
  constructor
  · decide
  · decide

/-- C5 (amended): every name returned by `TableRegistry.register` (from any
registry state) draws its characters from lowercase letters, digits,
underscore, dollar sign and the dot separator, and never starts with a
digit; the sanitized base name is truncated to at most 63 characters, but a
collision suffix `_k` can push the returned name past 63. -/
theorem c5_register_name_shape (st : RegState) (ns relpath sheet : Str)
    (region : Nat) :
    (∀ c ∈ (register st ns relpath sheet region).1, isNameChar c = true) ∧
    nameHeadDigit (register st ns relpath sheet region).1 = false ∧
    (buildAndSanitize ns relpath sheet region).length ≤ 63 := by
  have hchars : ∀ c ∈ buildAndSanitize ns relpath sheet region,
      isNameChar c = true := fun c hc => mem_buildAndSanitize hc
  have hhead := nameHeadDigit_buildAndSanitize ns relpath sheet region
  unfold register handleCollision
  by_cases hmem : buildAndSanitize ns relpath sheet region ∈ st.names
  · refine ⟨?_, ?_, length_buildAndSanitize ns relpath sheet region⟩
    · intro c hc
      simp only [if_pos hmem] at hc
      rcases List.mem_append.mp hc with h1 | h2
      · exact hchars c h1
      · rcases List.mem_cons.mp h2 with rfl | h3
        · decide
        · simp [isNameChar, isBaseChar, mem_natToChars h3]
    · simp only [if_pos hmem]
      exact nameHeadDigit_append_tail hhead
  · exact ⟨fun c hc => hchars c (by simpa [if_neg hmem] using hc),
      by simpa [if_neg hmem] using hhead,
      length_buildAndSanitize ns relpath sheet region⟩

/-- Witness for C5 (amended) at a concrete registration. -/
theorem c5_register_name_witness :
    nameHeadDigit (register ⟨[], []⟩ "excel".toList "2024/report.xlsx".toList
      "Sheet1".toList 0).1 = false ∧
    (buildAndSanitize "excel".toList "2024/report.xlsx".toList
      "Sheet1".toList 0).length ≤ 63 := by
  exact ⟨(c5_register_name_shape ⟨[], []⟩ "excel".toList
      "2024/report.xlsx".toList "Sheet1".toList 0).2.1,
    (c5_register_name_shape ⟨[], []⟩ "excel".toList
      "2024/report.xlsx".toList "Sheet1".toList 0).2.2⟩

/-- `find?` over `range' s n` returns the smallest qualifying row: it
satisfies the predicate, lies in the scanned interval, and every earlier row
fails the predicate. -/
theorem findRangeFirst (p : Nat → Bool) :
    ∀ (n s a : Nat), (List.range' s n).find? p = some a →
      p a = true ∧ s ≤ a ∧ a < s + n ∧ ∀ b, s ≤ b → b < a → p b = false := by
  intro n
  induction n with
  | zero => intro s a h; cases h
  | succ k ih =>
    intro s a h
    rw [List.range'_succ] at h
    by_cases hp : p s
    · rw [List.find?_cons_of_pos _ hp] at h
      obtain rfl : s = a := by injection h
      exact ⟨hp, Nat.le_refl _, by omega, fun b hb1 hb2 => absurd hb1 (by omega)⟩
    · rw [List.find?_cons_of_neg _ hp] at h
      obtain ⟨hpa, h1, h2, hmin⟩ := ih (s + 1) a h
      refine ⟨hpa, by omega, by omega, ?_⟩
      intro b hb1 hb2
      rcases Nat.eq_or_lt_of_le hb1 with rfl | hlt
      · exact Bool.eq_false_iff.mpr hp
      · exact hmin b (by omega) hb2

/-- A detected header row lies at or after the box's start row. -/
theorem detectHeaders_row_ge_start {g : GridM} {reg : RegionM} {r : Nat}
    (h : (detectHeaders g reg).header_row = some r) : reg.start_row ≤ r := by
  unfold detectHeaders at h
  cases hf : (headerScanRows reg).find? (rowQualifies g reg) with
  | none => rw [hf] at h; simp at h
  | some a =>
    rw [hf] at h
    have ha : a = r := by simpa using h
    subst ha
    exact (findRangeFirst (rowQualifies g reg) _ _ _ hf).2.1

/-- C3 counterexample: the claim says confidence 0.9 is returned exactly
when the selected row is validated by a numeric cell beneath it, else
`header_row = None` with 0.0.  On a one-row box holding the text `"Name"`,
`_detect_headers` selects the row through the `row_idx == end_row` branch
with no numeric row beneath, yet still reports confidence 0.9. -/
theorem c3_last_row_confidence_counterexample :
    detectHeaders gridOneText regOne = ⟨some 1, 1, mkRat 9 10⟩ ∧
    numbersBelowB gridOneText regOne.end_row regOne.start_col regOne.end_col 1 =
      false := by
  constructor
  · decide
  · decide

/-- C3 (amended): `_detect_headers` scans at most 10 rows from the box start
and selects the first non-empty row whose non-empty cells are all text and
that either has a numeric cell in the row below or is the box's last row;
whenever a row is selected the confidence is 0.9 (also when the selection
rests only on the last-row rule), and when no row qualifies the result is
`header_row = None` with confidence 0.0. -/
theorem c3_header_detection_rule (g : GridM) (reg : RegionM) :
    (headerScanRows reg).length ≤ 10 ∧
    (∀ r, (detectHeaders g reg).header_row = some r →
      (detectHeaders g reg).confidence = mkRat 9 10 ∧
      (detectHeaders g reg).header_rows_count = 1 ∧
      reg.start_row ≤ r ∧ r < reg.start_row + 10 ∧ r ≤ reg.end_row ∧
      rowQualifies g reg r = true ∧
      ∀ q, reg.start_row ≤ q → q < r → rowQualifies g reg q = false) ∧
    ((detectHeaders g reg).header_row = none →
      (detectHeaders g reg).confidence = 0 ∧
      ∀ r ∈ headerScanRows reg, rowQualifies g reg r = false) := by
  have hlen : (headerScanRows reg).length ≤ 10 := by
    unfold headerScanRows
    rw [List.length_range']
    have h1 := Nat.min_le_left (reg.start_row + 10) (reg.end_row + 1)
    omega
  refine ⟨hlen, ?_, ?_⟩
  · intro r hr
    unfold detectHeaders at hr ⊢
    cases hf : (headerScanRows reg).find? (rowQualifies g reg) with
    | none => rw [hf] at hr; simp at hr
    | some a =>
      rw [hf] at hr
      have ha : a = r := by simpa using hr
      subst ha
      have hm := findRangeFirst (rowQualifies g reg) _ _ _ (by
        unfold headerScanRows at hf; exact hf)
      have h1 := Nat.min_le_left (reg.start_row + 10) (reg.end_row + 1)
      have h2 := Nat.min_le_right (reg.start_row + 10) (reg.end_row + 1)
      exact ⟨rfl, rfl, hm.2.1, by omega, by omega, hm.1, hm.2.2.2⟩
  · intro hr
    unfold detectHeaders at hr ⊢
    cases hf : (headerScanRows reg).find? (rowQualifies g reg) with
    | some a => rw [hf] at hr; simp at hr
    | none =>
      refine ⟨rfl, ?_⟩
      intro r hmem
      exact Bool.eq_false_iff.mpr (List.find?_eq_none.mp hf r hmem)

/-- Witness for C3 (amended): on a concrete sheet (`"H"` over `5`) the
selected row qualifies and carries confidence 0.9. -/
theorem c3_header_detection_witness :
    (detectHeaders gridHeaderNum regTwo).confidence = mkRat 9 10 ∧
    rowQualifies gridHeaderNum regTwo 1 = true := by
  have h := (c3_header_detection_rule gridHeaderNum regTwo).2.1 1 (by decide)
  exact ⟨h.1, h.2.2.2.2.2.1⟩

/-- C2 counterexample: the claim promises exactly one table for every sheet
without a blank-row run of length ≥ 2, but on a one-cell sheet holding the
number `5` header detection finds nothing and `_detect_multiple_tables`
returns zero tables. -/
theorem c2_headerless_sheet_counterexample :
    (∀ grp ∈ groupConsecutiveBlankRows (detectBlankRows gridOneNum regOne),
      grp.length < 2) ∧
    (detectMultipleTables gridOneNum regOne
      (detectHeaders gridOneNum regOne)).length = 0 := by
  constructor
  · decide
  · decide

/-- C2 (amended): on every sheet whose blank rows inside the bounding box
contain no run of two or more consecutive fully-blank rows *and on which
sheet-level header detection finds a header row*, multi-table detection
yields exactly one table whose bounds and confidence coincide with the
single-table header detection result — the header row through the box's end
row at the full box width; in particular a single blank row never splits a
table. -/
theorem c2_no_gap_single_table (g : GridM) (reg : RegionM)
    (hstart : 1 ≤ reg.start_row) (r : Nat)
    (hhr : (detectHeaders g reg).header_row = some r)
    (hgaps : ∀ grp ∈ groupConsecutiveBlankRows (detectBlankRows g reg),
      grp.length < 2) :
    detectMultipleTables g reg (detectHeaders g reg) =
      [⟨r, reg.end_row, reg.start_col, reg.end_col, true, some r,
        (detectHeaders g reg).confidence, none⟩] := by
  have hr1 : reg.start_row ≤ r := detectHeaders_row_ge_start hhr
  have hrne : r ≠ 0 := by omega
  have hsig : (groupConsecutiveBlankRows (detectBlankRows g reg)).filter
      (fun grp => decide (2 ≤ grp.length)) = [] := by
    rw [List.filter_eq_nil_iff]
    intro a ha
    simp only [decide_eq_true_eq]
    have := hgaps a ha
    omega
  simp [detectMultipleTables, hsig, headerTruthy, hhr, hrne, fullBoxTable]

/-- Witness for C2 (amended): the sheet `"A"`, `1`, blank, `2` has a single
blank row, and detection returns exactly one table spanning rows 1-4. -/
theorem c2_no_gap_single_table_witness :
    detectMultipleTables gridSingleBlank regFour
        (detectHeaders gridSingleBlank regFour) =
      [⟨1, 4, 1, 1, true, some 1, mkRat 9 10, none⟩] := by
  rw [c2_no_gap_single_table gridSingleBlank regFour (by decide) 1 (by decide)
    (by decide)]
  decide
